import Mathlib

/-!
Shallow embedding of the threebody N-body simulation core (src/main.rs).

Scalars are modelled by an arbitrary linear ordered field `R` (instantiated
at `ℚ` for concrete evaluation and at `ℝ` when genuine square-root facts are
needed).  The floating-point square-root routine is passed explicitly as a
function `sq : R → R`; theorems that depend on its mathematical behaviour
take that behaviour as hypotheses, discharged at `Real.sqrt`.
-/

namespace Threebody

/-- 2D vector, embedding glam's `Vec2` as used by the source. -/
structure Vec2 (R : Type) where
  x : R
  y : R
deriving DecidableEq

variable {R : Type} [LinearOrderedField R]

instance : Zero (Vec2 R) := ⟨⟨0, 0⟩⟩

instance : Add (Vec2 R) := ⟨fun a b => ⟨a.x + b.x, a.y + b.y⟩⟩

instance : Neg (Vec2 R) := ⟨fun a => ⟨-a.x, -a.y⟩⟩

instance : Sub (Vec2 R) := ⟨fun a b => ⟨a.x - b.x, a.y - b.y⟩⟩

instance : SMul R (Vec2 R) := ⟨fun c v => ⟨c * v.x, c * v.y⟩⟩

theorem Vec2.zero_def : (0 : Vec2 R) = ⟨0, 0⟩ := rfl

theorem Vec2.zero_x : (0 : Vec2 R).x = 0 := rfl

theorem Vec2.zero_y : (0 : Vec2 R).y = 0 := rfl

theorem Vec2.add_def (a b : Vec2 R) : a + b = ⟨a.x + b.x, a.y + b.y⟩ := rfl

theorem Vec2.sub_def (a b : Vec2 R) : a - b = ⟨a.x - b.x, a.y - b.y⟩ := rfl

theorem Vec2.smul_def (c : R) (v : Vec2 R) : c • v = ⟨c * v.x, c * v.y⟩ := rfl

instance : AddCommMonoid (Vec2 R) where
  add_assoc a b c := by simp [Vec2.add_def, add_assoc]
  zero_add a := by simp [Vec2.add_def, Vec2.zero_def]
  add_zero a := by simp [Vec2.add_def, Vec2.zero_def]
  add_comm a b := by simp [Vec2.add_def, add_comm]
  nsmul := nsmulRec

/-- Squared Euclidean norm of a `Vec2`. -/
def Vec2.lengthSq (v : Vec2 R) : R := v.x ^ 2 + v.y ^ 2

/-- glam `Vec2::length`: the square root of the squared norm, via the
supplied square-root routine. -/
def Vec2.length (sq : R → R) (v : Vec2 R) : R := sq (v.x ^ 2 + v.y ^ 2)

/-- glam `Vec2::normalize`: divide by the length. -/
def Vec2.normalize (sq : R → R) (v : Vec2 R) : Vec2 R :=
  ⟨v.x / Vec2.length sq v, v.y / Vec2.length sq v⟩

/-- `const G: f32 = 1.0e-1` (src/main.rs:6). -/
def G : R := 1 / 10

/-- `const SCREEN_WIDTH: f32 = 800.0` (src/main.rs:8). -/
def SCREEN_WIDTH : R := 800

/-- `const SCREEN_HEIGHT: f32 = 600.0` (src/main.rs:9). -/
def SCREEN_HEIGHT : R := 600

/-- `const FRICTION: f32 = 0.99` (src/main.rs:10). -/
def FRICTION : R := 99 / 100

/-- `const MAX_VELOCITY: f32 = 10.0` (src/main.rs:11). -/
def MAX_VELOCITY : R := 10

/-- The simulated particle (src/main.rs:13-22). -/
structure Body (R : Type) where
  position : Vec2 R
  velocity : Vec2 R
  acceleration : Vec2 R
  force : Vec2 R
  mass : R
  radius : R
  freezed : Bool
deriving DecidableEq

/-- `Body::new` (src/main.rs:24-35). -/
def Body.new (initial_pos : Vec2 R) : Body R :=
  { position := initial_pos
    velocity := 0
    acceleration := 0
    force := 0
    mass := 1000
    radius := 10
    freezed := false }

instance : Inhabited (Body R) := ⟨Body.new ⟨0, 0⟩⟩

/-- `Body::random` (src/main.rs:37-57).  The random draws are passed in as
parameters `randPos`, `randVel`, `randMass`; the actual generator produces
`randPos` within the arena, `randVel` components in `[-0.5, 0.5]` and
`randMass` in `[500, 1500]`. -/
def Body.random (initial_pos : Option (Vec2 R)) (randPos : Vec2 R) (randVel : Vec2 R)
    (randMass : R) : Body R :=
  { position := initial_pos.getD randPos
    velocity := randVel
    acceleration := 0
    force := 0
    mass := randMass
    radius := randMass / 150
    freezed := false }

/-- `Body::get_distance` (src/main.rs:59-64). -/
def Body.get_distance (sq : R → R) (b other_body : Body R) : R :=
  sq ((other_body.position.x - b.position.x) ^ 2 + (other_body.position.y - b.position.y) ^ 2)

/-- `Body::calculate_force` (src/main.rs:66-82). -/
def Body.calculate_force (sq : R → R) (b other_body : Body R) : Vec2 R :=
  let distance := b.get_distance sq other_body
  if distance < 2 * b.radius then 0
  else
    let numer := b.mass * other_body.mass
    let denom := distance ^ 2
    let magnitude := G * (numer / denom)
    ⟨magnitude * ((other_body.position.x - b.position.x) / distance),
     magnitude * ((other_body.position.y - b.position.y) / distance)⟩

/-- `Body::update_acceleration` (src/main.rs:88-91). -/
def Body.update_acceleration (b : Body R) : Body R :=
  { b with acceleration := ⟨b.force.x / b.mass, b.force.y / b.mass⟩ }

/-- `Body::update_velocity` (src/main.rs:93-100): `velocity += acceleration * dt`,
then clamp to `MAX_VELOCITY` when the length exceeds it. -/
def Body.update_velocity (sq : R → R) (dt : R) (b : Body R) : Body R :=
  if Vec2.length sq (b.velocity + dt • b.acceleration) > MAX_VELOCITY then
    { b with velocity :=
        (MAX_VELOCITY : R) • Vec2.normalize sq (b.velocity + dt • b.acceleration) }
  else
    { b with velocity := b.velocity + dt • b.acceleration }

/-- `Body::update_position` (src/main.rs:102-104). -/
def Body.update_position (dt : R) (b : Body R) : Body R :=
  { b with position := b.position + dt • b.velocity }

/-- `Body::check_and_resolve_collision` (src/main.rs:106-115): the pair of
updated `(self, other_body)` states. -/
def Body.check_and_resolve_collision (sq : R → R) (b other_body : Body R) :
    Body R × Body R :=
  if b.get_distance sq other_body < 2 * b.radius ∨
      b.get_distance sq other_body < 2 * other_body.radius then
    ({ b with velocity := (FRICTION : R) • other_body.velocity },
     { other_body with velocity := (FRICTION : R) • b.velocity })
  else
    (b, other_body)

/-- `f32::clamp(self, min, max)` on the value level (ignoring the
`min ≤ max` assertion, which `rustClampChecked` models). -/
def rustClamp (x lo hi : R) : R :=
  if x < lo then lo else if hi < x then hi else x

/-- `f32::clamp` with its `assert!(min <= max)` precondition made explicit:
`none` models the panic. -/
def rustClampChecked (x lo hi : R) : Option R :=
  if lo ≤ hi then some (rustClamp x lo hi) else none

/-- `Body::check_boundary_collisions` (src/main.rs:117-129). -/
def Body.check_boundary_collisions (b : Body R) : Body R :=
  let b1 :=
    if b.position.x ≤ b.radius ∨ b.position.x ≥ SCREEN_WIDTH - b.radius then
      { b with velocity := ⟨-b.velocity.x * FRICTION, b.velocity.y⟩
               position := ⟨rustClamp b.position.x b.radius (SCREEN_WIDTH - b.radius),
                            b.position.y⟩ }
    else b
  if b1.position.y ≤ b1.radius ∨ b1.position.y ≥ SCREEN_HEIGHT - b1.radius then
    { b1 with velocity := ⟨b1.velocity.x, -b1.velocity.y * FRICTION⟩
              position := ⟨b1.position.x,
                           rustClamp b1.position.y b1.radius (SCREEN_HEIGHT - b1.radius)⟩ }
  else b1

/-- `Body::check_boundary_collisions` with the panic of `f32::clamp`
(when `min > max`) made explicit as `none`. -/
def Body.check_boundary_collisions_checked (b : Body R) : Option (Body R) :=
  (if b.position.x ≤ b.radius ∨ b.position.x ≥ SCREEN_WIDTH - b.radius then
      (rustClampChecked b.position.x b.radius (SCREEN_WIDTH - b.radius)).map (fun px =>
        { b with velocity := ⟨-b.velocity.x * FRICTION, b.velocity.y⟩
                 position := ⟨px, b.position.y⟩ })
    else some b).bind (fun b1 =>
  if b1.position.y ≤ b1.radius ∨ b1.position.y ≥ SCREEN_HEIGHT - b1.radius then
      (rustClampChecked b1.position.y b1.radius (SCREEN_HEIGHT - b1.radius)).map (fun py =>
        { b1 with velocity := ⟨b1.velocity.x, -b1.velocity.y * FRICTION⟩
                  position := ⟨b1.position.x, py⟩ })
    else some b1)

/-- `Body::update` (src/main.rs:131-137). -/
def Body.update (sq : R → R) (dt : R) (b : Body R) : Body R :=
  if b.freezed then b
  else ((b.update_acceleration).update_velocity sq dt).update_position dt

/-- `Body::calculate_forces` (src/main.rs:139-154): for each enumerated body,
fold the pairwise force over the enumerated collection, skipping the equal
index. -/
def Body.calculate_forces (sq : R → R) (bodies : List (Body R)) : List (Vec2 R) :=
  bodies.enum.map (fun p =>
    bodies.enum.foldl (fun acc q =>
      if p.1 ≠ q.1 then acc + Body.calculate_force sq p.2 q.2 else acc) 0)

/-- One pass of `bodies.iter_mut().zip(forces).for_each(...)`: bodies beyond
the length of `forces` are left untouched (as with a Rust zip). -/
def zipUpdate (sq : R → R) (dt : R) : List (Body R) → List (Vec2 R) → List (Body R)
  | [], _ => []
  | b :: bs, [] => b :: bs
  | b :: bs, f :: fs => ({ b with force := f }.update sq dt) :: zipUpdate sq dt bs fs

/-- `Body::apply_forces` (src/main.rs:156-164). -/
def Body.apply_forces (sq : R → R) (bodies : List (Body R)) (forces : List (Vec2 R))
    (dt : R) : List (Body R) :=
  zipUpdate sq dt bodies forces

/-- `Body::apply_forces_with_substeps` (src/main.rs:166-182). -/
def Body.apply_forces_with_substeps (sq : R → R) (bodies : List (Body R))
    (forces : List (Vec2 R)) (dt : R) (substeps : Nat) : List (Body R) :=
  let dt_substep := dt / (substeps : R)
  (List.range substeps).foldl (fun bs _ => zipUpdate sq dt_substep bs forces) bodies

/-- The pair-resolution statement of the main loop (src/main.rs:238-240):
`let mut other_body = bodies[j]; bodies[i].check_and_resolve_collision(&mut other_body);
bodies[j] = other_body;`. -/
def resolvePairAt (sq : R → R) (bs : List (Body R)) (i j : Nat) : List (Body R) :=
  let p := Body.check_and_resolve_collision sq (bs.getD i default) (bs.getD j default)
  (bs.set i p.1).set j p.2

/-- The inner `for j in i+1..bodies.len()` loop of the main loop. -/
def innerPass (sq : R → R) (bs : List (Body R)) (i : Nat) : List (Body R) :=
  (List.range' (i + 1) (bs.length - (i + 1))).foldl (fun s j => resolvePairAt sq s i j) bs

/-- The outer `for i in 0..bodies.len()` loop of the main loop
(src/main.rs:236-243): resolve all pairs `(i, j)` with `j > i`, then the
boundary collision for body `i`. -/
def outerPass (sq : R → R) (bs : List (Body R)) : List (Body R) :=
  (List.range bs.length).foldl (fun s i =>
    let s2 := innerPass sq s i
    s2.set i (Body.check_boundary_collisions (s2.getD i default))) bs

/-- One full simulation step of the main loop: compute forces, apply them
with substepping, then the pairwise-collision/boundary pass.  The program
runs this with `dt = 1.0`, `substeps = 1000` (src/main.rs:196-199, 236-243). -/
def step (sq : R → R) (dt : R) (substeps : Nat) (bodies : List (Body R)) : List (Body R) :=
  outerPass sq (Body.apply_forces_with_substeps sq bodies
    (Body.calculate_forces sq bodies) dt substeps)

/-- Refinement reference for the Force Field, following the spec's words:
the pairwise contribution from `j` to `i` is the zero vector when
`d(i,j) < 2*radius_i`, and otherwise `G * m_i * m_j / d(i,j)^2 * unit(j - i)`. -/
def specPairContribution (sq : R → R) (bi bj : Body R) : Vec2 R :=
  let d := bi.get_distance sq bj
  if d < 2 * bi.radius then 0
  else (G * bi.mass * bj.mass / d ^ 2) • Vec2.normalize sq (bj.position - bi.position)

/-! ### Fixed concrete instantiations used by witnesses and counterexamples -/

/-- Degenerate square-root stand-in: all distances evaluate to `0`.  Used only
where every distance that occurs is in fact `0`. -/
def sqZero : ℚ → ℚ := fun _ => 0

/-- Identity square-root stand-in (monotone, `0 ↦ 0`): distances evaluate to
the squared Euclidean distance, which is fine for branch-selection checks. -/
def sqId : ℚ → ℚ := fun x => x

/-! ### List helper lemmas -/

theorem getD_set_self {α : Type} (a d : α) :
    ∀ (l : List α) (i : Nat), i < l.length → (l.set i a).getD i d = a := by
  intro l
  induction l with
  | nil => intro i h; simp at h
  | cons x xs ih =>
    intro i h
    cases i with
    | zero => rfl
    | succ n =>
      simp only [List.set, List.getD, List.get?]
      exact ih n (by simpa using h)

theorem getD_set_ne {α : Type} (a d : α) :
    ∀ (l : List α) (i j : Nat), i ≠ j → (l.set i a).getD j d = l.getD j d := by
  intro l
  induction l with
  | nil => intro i j _; simp
  | cons x xs ih =>
    intro i j hij
    cases i with
    | zero =>
      cases j with
      | zero => exact absurd rfl hij
      | succ m => rfl
    | succ n =>
      cases j with
      | zero => rfl
      | succ m =>
        simp only [List.set, List.getD, List.get?]
        exact ih n m (by omega)

theorem set_getD_self {α : Type} (d : α) :
    ∀ (l : List α) (i : Nat), l.set i (l.getD i d) = l := by
  intro l
  induction l with
  | nil => intro i; rfl
  | cons x xs ih =>
    intro i
    cases i with
    | zero => rfl
    | succ n => simpa [List.set] using ih n

theorem getD_map {α β : Type} (f : α → β) (d : β) (d' : α) :
    ∀ (l : List α) (i : Nat), i < l.length → (l.map f).getD i d = f (l.getD i d') := by
  intro l
  induction l with
  | nil => intro i h; simp at h
  | cons a l ih =>
    intro i h
    cases i with
    | zero => rfl
    | succ n => exact ih n (by simpa using h)

theorem getD_enumFrom {α : Type} (dA : α) :
    ∀ (l : List α) (s i : Nat), i < l.length →
      (List.enumFrom s l).getD i (0, dA) = (s + i, l.getD i dA) := by
  intro l
  induction l with
  | nil => intro s i h; simp at h
  | cons a l ih =>
    intro s i h
    cases i with
    | zero => rfl
    | succ n =>
      have hrec := ih (s + 1) n (by simpa using h)
      have harith : s + 1 + n = s + (n + 1) := by omega
      show (List.enumFrom (s + 1) l).getD n (0, dA) = (s + (n + 1), l.getD n dA)
      rw [hrec, harith]

theorem foldl_fixed_range {α : Type} (g : α → α) :
    ∀ (n : Nat) (a : α), (List.range n).foldl (fun s _ => g s) a = g^[n] a := by
  intro n
  induction n with
  | zero => intro a; rfl
  | succ m ih =>
    intro a
    rw [List.range_succ, List.foldl_append, ih, Function.iterate_succ_apply']
    rfl

theorem foldl_ite_add {α M : Type} [AddCommMonoid M] (p : α → Prop) [DecidablePred p]
    (F : α → M) :
    ∀ (l : List α) (a : M),
      l.foldl (fun acc q => if p q then acc + F q else acc) a =
        a + (l.map (fun q => if p q then F q else 0)).sum := by
  intro l
  induction l with
  | nil => intro a; simp
  | cons x xs ih =>
    intro a
    by_cases hx : p x
    · simp only [List.foldl_cons, List.map_cons, List.sum_cons, if_pos hx, ih, add_assoc]
    · simp only [List.foldl_cons, List.map_cons, List.sum_cons, if_neg hx, ih, zero_add]

theorem sum_map_enumFrom {α M : Type} [AddCommMonoid M] (g : Nat → α → M) (dflt : α) :
    ∀ (l : List α) (s : Nat),
      ((List.enumFrom s l).map (fun q => g q.1 q.2)).sum =
        ∑ j ∈ Finset.range l.length, g (s + j) (l.getD j dflt) := by
  intro l
  induction l with
  | nil => intro s; simp
  | cons x xs ih =>
    intro s
    have hsucc :
        ∑ j ∈ Finset.range (xs.length + 1), g (s + j) ((x :: xs).getD j dflt) =
          (∑ j ∈ Finset.range xs.length, g (s + (j + 1)) ((x :: xs).getD (j + 1) dflt)) +
            g (s + 0) ((x :: xs).getD 0 dflt) :=
      Finset.sum_range_succ' (fun j => g (s + j) ((x :: xs).getD j dflt)) xs.length
    simp only [List.enumFrom, List.map_cons, List.sum_cons, List.length_cons, hsucc]
    have harg : ∀ j : Nat, s + (j + 1) = s + 1 + j := by intro j; omega
    have : (∑ j ∈ Finset.range xs.length, g (s + (j + 1)) ((x :: xs).getD (j + 1) dflt)) =
        ∑ j ∈ Finset.range xs.length, g (s + 1 + j) (xs.getD j dflt) := by
      refine Finset.sum_congr rfl fun j _ => ?_
      rw [harg j]
      rfl
    rw [this, ← ih (s + 1), add_comm]
    rfl

/-! ### Claim theorems -/

/-- The code's pairwise force coincides with the spec's formula
`G * m_i * m_j / d^2 * unit(j - i)` with the `d < 2*radius_i` short-circuit. -/
theorem calculate_force_eq_spec (sq : R → R) (bi bj : Body R) :
    bi.calculate_force sq bj = specPairContribution sq bi bj := by
  by_cases h : bi.get_distance sq bj < 2 * bi.radius
  · simp [Body.calculate_force, specPairContribution, h]
  · have hlen : Vec2.length sq
        (⟨bj.position.x - bi.position.x, bj.position.y - bi.position.y⟩ : Vec2 R) =
        bi.get_distance sq bj := by
      simp [Vec2.length, Body.get_distance]
    simp only [Body.calculate_force, specPairContribution, if_neg h, Vec2.normalize, hlen,
      Vec2.smul_def, Vec2.sub_def, Vec2.mk.injEq]
    constructor <;> ring

/-- Claim C1: the Force Field output is index-aligned with and has the same
length as the input collection, its `i`-th entry is the vector sum over all
`j ≠ i` of the spec's pairwise contribution, and any pairwise contribution
with `d(i,j) < 2*radius_i` is exactly the zero vector. -/
theorem C1_force_field (sq : R → R) (bodies : List (Body R)) :
    (Body.calculate_forces sq bodies).length = bodies.length ∧
    (∀ bi bj : Body R, bi.get_distance sq bj < 2 * bi.radius →
        bi.calculate_force sq bj = 0) ∧
    ∀ i : Nat, i < bodies.length →
      (Body.calculate_forces sq bodies).getD i 0 =
        ∑ j ∈ Finset.range bodies.length,
          if j ≠ i then
            specPairContribution sq (bodies.getD i default) (bodies.getD j default)
          else 0 := by
  refine ⟨by simp [Body.calculate_forces], ?_, ?_⟩
  · intro bi bj h
    simp [Body.calculate_force, h]
  · intro i hi
    have hienum : i < bodies.enum.length := by simpa using hi
    have hElem : (Body.calculate_forces sq bodies).getD i 0 =
        bodies.enum.foldl (fun acc q =>
          if i ≠ q.1 then acc + Body.calculate_force sq (bodies.getD i default) q.2
          else acc) 0 := by
      unfold Body.calculate_forces
      rw [getD_map _ _ ((0 : Nat), (default : Body R)) bodies.enum i hienum]
      have he : bodies.enum.getD i ((0 : Nat), (default : Body R)) =
          (i, bodies.getD i default) := by
        have h0 := getD_enumFrom (default : Body R) bodies 0 i hi
        simpa using h0
      rw [he]
    rw [hElem, foldl_ite_add (fun q : Nat × Body R => i ≠ q.1)
      (fun q => Body.calculate_force sq (bodies.getD i default) q.2), zero_add]
    have henum : bodies.enum = List.enumFrom 0 bodies := rfl
    rw [henum, sum_map_enumFrom
      (fun j a => if i ≠ j then Body.calculate_force sq (bodies.getD i default) a else 0)
      default]
    refine Finset.sum_congr rfl fun j hj => ?_
    simp only [Nat.zero_add]
    by_cases hij : j ≠ i
    · rw [if_pos (Ne.symm hij), if_pos hij, calculate_force_eq_spec]
    · push_neg at hij
      rw [if_neg (by simp [hij]), if_neg (by simp [hij])]

/-- Claim C3: substepped integration with `substeps = 1` coincides exactly with
the single-step integration at the same `dt`; and with `substeps = N` the
update is the `N`-fold iterate of the single-step integration applied with the
same externally supplied force vector and time delta `dt / N`. -/
theorem C3_substeps_refinement (sq : R → R) (bodies : List (Body R))
    (forces : List (Vec2 R)) (dt : R) :
    Body.apply_forces_with_substeps sq bodies forces dt 1 =
        Body.apply_forces sq bodies forces dt ∧
    ∀ n : Nat, Body.apply_forces_with_substeps sq bodies forces dt n =
        (fun bs => Body.apply_forces sq bs forces (dt / (n : R)))^[n] bodies := by
  have hiter : ∀ n : Nat, Body.apply_forces_with_substeps sq bodies forces dt n =
      (fun bs => Body.apply_forces sq bs forces (dt / (n : R)))^[n] bodies := by
    intro n
    simp only [Body.apply_forces_with_substeps, Body.apply_forces]
    exact foldl_fixed_range (fun bs => zipUpdate sq (dt / (n : R)) bs forces) n bodies
  refine ⟨?_, hiter⟩
  rw [hiter 1, Function.iterate_one]
  simp [Body.apply_forces, Nat.cast_one, div_one]

/-- Claim C10: calling the substepped integrator with `substeps = 0` leaves the
body collection exactly unchanged (the loop body never executes and the
computed `dt / 0` is never applied). -/
theorem C10_substeps_zero (sq : R → R) (bodies : List (Body R))
    (forces : List (Vec2 R)) (dt : R) :
    Body.apply_forces_with_substeps sq bodies forces dt 0 = bodies := by
  simp [Body.apply_forces_with_substeps]

/-- Claim C8 counterexample: a spawn command with the explicit out-of-range
position `(900, 700)` produces a body at exactly that position — outside the
`800 × 600` arena — so the provided position is used verbatim, not clamped. -/
theorem C8_counterexample :
    (Body.random (some (⟨900, 700⟩ : Vec2 ℚ)) ⟨0, 0⟩ ⟨0, 0⟩ 1000).position =
        (⟨900, 700⟩ : Vec2 ℚ) ∧
    ¬ ((Body.random (some (⟨900, 700⟩ : Vec2 ℚ)) ⟨0, 0⟩ ⟨0, 0⟩ 1000).position.x ≤
        (SCREEN_WIDTH : ℚ)) := by
  constructor
  · rfl
  · norm_num [Body.random, SCREEN_WIDTH]

/-- Claim C8 (amended): a spawn command carrying an explicit position uses that
position verbatim — no validation or clamping is applied; only when no
position is supplied is the randomized in-arena position used. -/
theorem C8_spawn_verbatim (initial_pos randPos randVel : Vec2 R) (randMass : R) :
    (Body.random (some initial_pos) randPos randVel randMass).position = initial_pos ∧
    (Body.random none randPos randVel randMass).position = randPos :=
  ⟨rfl, rfl⟩

/-- The velocity field after `Body::update_velocity`, as an explicit
conditional. -/
theorem update_velocity_velocity (sq : R → R) (dt : R) (b : Body R) :
    (b.update_velocity sq dt).velocity =
      if Vec2.length sq (b.velocity + dt • b.acceleration) > MAX_VELOCITY then
        (MAX_VELOCITY : R) • Vec2.normalize sq (b.velocity + dt • b.acceleration)
      else b.velocity + dt • b.acceleration := by
  unfold Body.update_velocity
  split_ifs <;> rfl

/-- Claim C2: after the velocity update the speed is at most `MAX_VELOCITY`,
and when the unclamped speed exceeds `MAX_VELOCITY` the velocity is rescaled
by a positive scalar (direction-preserving) to magnitude exactly
`MAX_VELOCITY`.  The square-root routine is assumed to be an actual square
root (true of `Real.sqrt`). -/
theorem C2_velocity_clamped (sq : R → R)
    (hsq : ∀ x : R, 0 ≤ x → sq x * sq x = x)
    (hnn : ∀ x : R, 0 ≤ x → 0 ≤ sq x)
    (b : Body R) (dt : R) :
    Vec2.length sq ((b.update_velocity sq dt).velocity) ≤ MAX_VELOCITY ∧
    ((MAX_VELOCITY : R) < Vec2.length sq (b.velocity + dt • b.acceleration) →
      Vec2.length sq ((b.update_velocity sq dt).velocity) = MAX_VELOCITY ∧
      ∃ c : R, 0 < c ∧
        (b.update_velocity sq dt).velocity = c • (b.velocity + dt • b.acceleration)) := by
  set v : Vec2 R := b.velocity + dt • b.acceleration with hv
  have hS : (0 : R) ≤ v.x ^ 2 + v.y ^ 2 := by positivity
  have hLL : Vec2.length sq v * Vec2.length sq v = v.x ^ 2 + v.y ^ 2 := hsq _ hS
  have hL0 : 0 ≤ Vec2.length sq v := hnn _ hS
  by_cases h : Vec2.length sq v > MAX_VELOCITY
  · have hLpos : (0 : R) < Vec2.length sq v :=
      lt_trans (by norm_num [MAX_VELOCITY]) h
    have hSpos : (0 : R) < v.x ^ 2 + v.y ^ 2 := hLL ▸ mul_pos hLpos hLpos
    have hw : (b.update_velocity sq dt).velocity =
        ⟨(MAX_VELOCITY : R) * (v.x / Vec2.length sq v),
         (MAX_VELOCITY : R) * (v.y / Vec2.length sq v)⟩ := by
      rw [update_velocity_velocity, ← hv, if_pos h]
      rfl
    have hwsq : ((MAX_VELOCITY : R) * (v.x / Vec2.length sq v)) ^ 2 +
        ((MAX_VELOCITY : R) * (v.y / Vec2.length sq v)) ^ 2 = 100 := by
      have expand : ((MAX_VELOCITY : R) * (v.x / Vec2.length sq v)) ^ 2 +
          ((MAX_VELOCITY : R) * (v.y / Vec2.length sq v)) ^ 2 =
          100 * (v.x ^ 2 + v.y ^ 2) / (Vec2.length sq v * Vec2.length sq v) := by
        simp only [MAX_VELOCITY]
        field_simp
        ring
      rw [expand, hLL, mul_div_assoc, div_self (ne_of_gt hSpos), mul_one]
    have h100 : sq (100 : R) = 10 := by
      have h1 := hsq (100 : R) (by norm_num)
      have h2 := hnn (100 : R) (by norm_num)
      have hfact : (sq (100 : R) - 10) * (sq (100 : R) + 10) = 0 := by linear_combination h1
      rcases mul_eq_zero.mp hfact with h3 | h3
      · linarith
      · linarith
    have hlenw : Vec2.length sq ((b.update_velocity sq dt).velocity) = MAX_VELOCITY := by
      rw [hw]
      show sq (((MAX_VELOCITY : R) * (v.x / Vec2.length sq v)) ^ 2 +
        ((MAX_VELOCITY : R) * (v.y / Vec2.length sq v)) ^ 2) = MAX_VELOCITY
      rw [hwsq, h100]
      simp [MAX_VELOCITY]
    refine ⟨le_of_eq hlenw, fun _ => ⟨hlenw,
      ⟨(MAX_VELOCITY : R) / Vec2.length sq v,
       div_pos (by norm_num [MAX_VELOCITY]) hLpos, ?_⟩⟩⟩
    rw [hw, Vec2.smul_def]
    simp only [Vec2.mk.injEq]
    constructor <;> ring
  · have hle : Vec2.length sq v ≤ MAX_VELOCITY := not_lt.mp h
    have hupd : (b.update_velocity sq dt).velocity = v := by
      rw [update_velocity_velocity, ← hv, if_neg h]
    exact ⟨by rw [hupd]; exact hle, fun hcon => absurd hcon h⟩

/-- Concrete body over `ℝ` used by the C2 witness: speed 50 before clamping. -/
def bReal : Body ℝ :=
  { position := ⟨0, 0⟩
    velocity := ⟨30, 40⟩
    acceleration := ⟨0, 0⟩
    force := ⟨0, 0⟩
    mass := 1000
    radius := 10
    freezed := false }

/-- Witness for C2 at `Real.sqrt` and a concrete body. -/
theorem C2_witness :
    Vec2.length Real.sqrt ((bReal.update_velocity Real.sqrt 1).velocity) ≤ MAX_VELOCITY :=
  (C2_velocity_clamped Real.sqrt (fun _ hx => Real.mul_self_sqrt hx)
    (fun x _ => Real.sqrt_nonneg x) bReal 1).1

/-- Claim C4: a pair is resolved exactly when `d < 2*radius_i ∨ d < 2*radius_j`;
on collision the velocities are swapped and scaled by the friction
coefficient (which is `< 1`), positions untouched; a pair separated by at
least `2*max(radius_i, radius_j)` is left completely unchanged. -/
theorem C4_pair_collision (sq : R → R) (b1 b2 : Body R) :
    (FRICTION : R) < 1 ∧
    ((b1.get_distance sq b2 < 2 * b1.radius ∨ b1.get_distance sq b2 < 2 * b2.radius) →
      (b1.check_and_resolve_collision sq b2).1.velocity = (FRICTION : R) • b2.velocity ∧
      (b1.check_and_resolve_collision sq b2).2.velocity = (FRICTION : R) • b1.velocity ∧
      (b1.check_and_resolve_collision sq b2).1.position = b1.position ∧
      (b1.check_and_resolve_collision sq b2).2.position = b2.position) ∧
    (¬ (b1.get_distance sq b2 < 2 * b1.radius ∨ b1.get_distance sq b2 < 2 * b2.radius) →
      b1.check_and_resolve_collision sq b2 = (b1, b2)) ∧
    (2 * max b1.radius b2.radius ≤ b1.get_distance sq b2 →
      b1.check_and_resolve_collision sq b2 = (b1, b2)) := by
  refine ⟨by norm_num [FRICTION], ?_, ?_, ?_⟩
  · intro h
    simp [Body.check_and_resolve_collision, if_pos h]
  · intro h
    simp only [Body.check_and_resolve_collision, if_neg h]
  · intro h
    have hmax1 := le_max_left b1.radius b2.radius
    have hmax2 := le_max_right b1.radius b2.radius
    have h1 : ¬ b1.get_distance sq b2 < 2 * b1.radius := by intro hc; linarith
    have h2 : ¬ b1.get_distance sq b2 < 2 * b2.radius := by intro hc; linarith
    simp only [Body.check_and_resolve_collision, if_neg (not_or.mpr ⟨h1, h2⟩)]

/-- Overlapping concrete body A for the C4 witness. -/
def cwA : Body ℚ :=
  { position := ⟨400, 300⟩
    velocity := ⟨1, 2⟩
    acceleration := ⟨0, 0⟩
    force := ⟨0, 0⟩
    mass := 1000
    radius := 10
    freezed := false }

/-- Overlapping concrete body B for the C4 witness (same position as A). -/
def cwB : Body ℚ := { cwA with velocity := ⟨3, 4⟩ }

/-- Witness for C4: the coincident pair `(cwA, cwB)` swaps friction-scaled
velocities. -/
theorem C4_witness :
    (cwA.check_and_resolve_collision sqZero cwB).1.velocity = (FRICTION : ℚ) • cwB.velocity ∧
    (cwA.check_and_resolve_collision sqZero cwB).2.velocity = (FRICTION : ℚ) • cwA.velocity := by
  have h := (C4_pair_collision sqZero cwA cwB).2.1
    (Or.inl (by norm_num [Body.get_distance, sqZero, cwA]))
  exact ⟨h.1, h.2.1⟩

/-- `rustClamp` really lands in `[lo, hi]` when the range is valid. -/
theorem rustClamp_bounds (x lo hi : R) (h : lo ≤ hi) :
    lo ≤ rustClamp x lo hi ∧ rustClamp x lo hi ≤ hi := by
  unfold rustClamp
  split_ifs with h1 h2 <;> constructor <;> linarith

/-- The x-axis half of `Body::check_boundary_collisions`. -/
def boundX (b : Body R) : Body R :=
  if b.position.x ≤ b.radius ∨ b.position.x ≥ SCREEN_WIDTH - b.radius then
    { b with velocity := ⟨-b.velocity.x * FRICTION, b.velocity.y⟩
             position := ⟨rustClamp b.position.x b.radius (SCREEN_WIDTH - b.radius),
                          b.position.y⟩ }
  else b

/-- The y-axis half of `Body::check_boundary_collisions`. -/
def boundY (b : Body R) : Body R :=
  if b.position.y ≤ b.radius ∨ b.position.y ≥ SCREEN_HEIGHT - b.radius then
    { b with velocity := ⟨b.velocity.x, -b.velocity.y * FRICTION⟩
             position := ⟨b.position.x,
                          rustClamp b.position.y b.radius (SCREEN_HEIGHT - b.radius)⟩ }
  else b

theorem check_boundary_eq (b : Body R) :
    b.check_boundary_collisions = boundY (boundX b) := rfl

/-- `boundX` leaves the y-components, radius, mass and frozen flag alone. -/
theorem boundX_frame (b : Body R) :
    (boundX b).velocity.y = b.velocity.y ∧ (boundX b).position.y = b.position.y ∧
    (boundX b).radius = b.radius ∧ (boundX b).mass = b.mass ∧
    (boundX b).freezed = b.freezed := by
  unfold boundX
  split_ifs <;> exact ⟨rfl, rfl, rfl, rfl, rfl⟩

/-- `boundY` leaves the x-components, radius, mass and frozen flag alone. -/
theorem boundY_frame (b : Body R) :
    (boundY b).velocity.x = b.velocity.x ∧ (boundY b).position.x = b.position.x ∧
    (boundY b).radius = b.radius ∧ (boundY b).mass = b.mass ∧
    (boundY b).freezed = b.freezed := by
  unfold boundY
  split_ifs <;> exact ⟨rfl, rfl, rfl, rfl, rfl⟩

/-- Claim C5: boundary resolution, per axis independently: a trigger negates
and friction-scales that axis's velocity component and clamps the position
into `[radius, extent - radius]`; a non-trigger leaves the axis unchanged;
both axes can fire in one call; and the body exactly at `x = extent` with
outward velocity ends at `x ≤ extent - radius` with reversed, friction-scaled
x-velocity. -/
theorem C5_boundary (b : Body R) (h0 : 0 ≤ b.radius)
    (hW : b.radius ≤ SCREEN_WIDTH - b.radius) (hH : b.radius ≤ SCREEN_HEIGHT - b.radius) :
    ((b.position.x ≤ b.radius ∨ b.position.x ≥ SCREEN_WIDTH - b.radius) →
        b.check_boundary_collisions.velocity.x = -b.velocity.x * FRICTION ∧
        b.radius ≤ b.check_boundary_collisions.position.x ∧
        b.check_boundary_collisions.position.x ≤ SCREEN_WIDTH - b.radius) ∧
    (¬ (b.position.x ≤ b.radius ∨ b.position.x ≥ SCREEN_WIDTH - b.radius) →
        b.check_boundary_collisions.velocity.x = b.velocity.x ∧
        b.check_boundary_collisions.position.x = b.position.x) ∧
    ((b.position.y ≤ b.radius ∨ b.position.y ≥ SCREEN_HEIGHT - b.radius) →
        b.check_boundary_collisions.velocity.y = -b.velocity.y * FRICTION ∧
        b.radius ≤ b.check_boundary_collisions.position.y ∧
        b.check_boundary_collisions.position.y ≤ SCREEN_HEIGHT - b.radius) ∧
    (¬ (b.position.y ≤ b.radius ∨ b.position.y ≥ SCREEN_HEIGHT - b.radius) →
        b.check_boundary_collisions.velocity.y = b.velocity.y ∧
        b.check_boundary_collisions.position.y = b.position.y) ∧
    (b.position.x = SCREEN_WIDTH → 0 < b.velocity.x →
        b.check_boundary_collisions.position.x ≤ SCREEN_WIDTH - b.radius ∧
        b.check_boundary_collisions.velocity.x = -b.velocity.x * FRICTION ∧
        b.check_boundary_collisions.velocity.x < 0) := by
  rw [check_boundary_eq]
  obtain ⟨hXvy, hXpy, hXr, -, -⟩ := boundX_frame b
  obtain ⟨hYvx, hYpx, -, -, -⟩ := boundY_frame (boundX b)
  have hxpart : ∀ hx : b.position.x ≤ b.radius ∨ b.position.x ≥ SCREEN_WIDTH - b.radius,
      (boundX b).velocity.x = -b.velocity.x * FRICTION ∧
      b.radius ≤ (boundX b).position.x ∧ (boundX b).position.x ≤ SCREEN_WIDTH - b.radius := by
    intro hx
    unfold boundX
    rw [if_pos hx]
    exact ⟨rfl, (rustClamp_bounds _ _ _ hW).1, (rustClamp_bounds _ _ _ hW).2⟩
  have hxneg : ∀ _ : ¬ (b.position.x ≤ b.radius ∨ b.position.x ≥ SCREEN_WIDTH - b.radius),
      (boundX b).velocity.x = b.velocity.x ∧ (boundX b).position.x = b.position.x := by
    intro hx
    unfold boundX
    rw [if_neg hx]
    exact ⟨rfl, rfl⟩
  have hypart : ∀ hy : b.position.y ≤ b.radius ∨ b.position.y ≥ SCREEN_HEIGHT - b.radius,
      (boundY (boundX b)).velocity.y = -b.velocity.y * FRICTION ∧
      b.radius ≤ (boundY (boundX b)).position.y ∧
      (boundY (boundX b)).position.y ≤ SCREEN_HEIGHT - b.radius := by
    intro hy
    have hy' : (boundX b).position.y ≤ (boundX b).radius ∨
        (boundX b).position.y ≥ SCREEN_HEIGHT - (boundX b).radius := by
      rw [hXpy, hXr]; exact hy
    unfold boundY
    rw [if_pos hy']
    refine ⟨by rw [hXvy], ?_, ?_⟩
    · have := (rustClamp_bounds (boundX b).position.y (boundX b).radius
        (SCREEN_HEIGHT - (boundX b).radius) (by rw [hXr]; exact hH)).1
      rw [hXr] at this ⊢
      exact this
    · have := (rustClamp_bounds (boundX b).position.y (boundX b).radius
        (SCREEN_HEIGHT - (boundX b).radius) (by rw [hXr]; exact hH)).2
      rw [hXr] at this ⊢
      exact this
  have hyneg : ∀ _ : ¬ (b.position.y ≤ b.radius ∨ b.position.y ≥ SCREEN_HEIGHT - b.radius),
      (boundY (boundX b)).velocity.y = b.velocity.y ∧
      (boundY (boundX b)).position.y = b.position.y := by
    intro hy
    have hy' : ¬ ((boundX b).position.y ≤ (boundX b).radius ∨
        (boundX b).position.y ≥ SCREEN_HEIGHT - (boundX b).radius) := by
      rw [hXpy, hXr]; exact hy
    unfold boundY
    rw [if_neg hy']
    exact ⟨hXvy, hXpy⟩
  refine ⟨fun hx => ?_, fun hx => ?_, hypart, hyneg, fun hedge hvx => ?_⟩
  · obtain ⟨h1, h2, h3⟩ := hxpart hx
    exact ⟨by rw [hYvx, h1], by rw [hYpx]; exact h2, by rw [hYpx]; exact h3⟩
  · obtain ⟨h1, h2⟩ := hxneg hx
    exact ⟨by rw [hYvx, h1], by rw [hYpx, h2]⟩
  · have hx : b.position.x ≤ b.radius ∨ b.position.x ≥ SCREEN_WIDTH - b.radius := by
      right; rw [hedge]; linarith
    obtain ⟨h1, h2, h3⟩ := hxpart hx
    have hfr : (0 : R) < FRICTION := by norm_num [FRICTION]
    refine ⟨by rw [hYpx]; exact h3, by rw [hYvx, h1], ?_⟩
    rw [hYvx, h1]
    have : 0 < b.velocity.x * FRICTION := mul_pos hvx hfr
    linarith

/-- Out-of-bounds concrete body for the C5 witness: exactly at the right edge,
moving outward. -/
def cwEdge : Body ℚ :=
  { position := ⟨800, 300⟩
    velocity := ⟨5, 0⟩
    acceleration := ⟨0, 0⟩
    force := ⟨0, 0⟩
    mass := 1000
    radius := 10
    freezed := false }

/-- Witness for C5: the edge body is reflected and clamped. -/
theorem C5_witness :
    cwEdge.check_boundary_collisions.position.x ≤ (SCREEN_WIDTH : ℚ) - cwEdge.radius ∧
    cwEdge.check_boundary_collisions.velocity.x = -cwEdge.velocity.x * FRICTION ∧
    cwEdge.check_boundary_collisions.velocity.x < 0 :=
  (C5_boundary cwEdge (by norm_num [cwEdge]) (by norm_num [cwEdge, SCREEN_WIDTH])
    (by norm_num [cwEdge, SCREEN_HEIGHT])).2.2.2.2
    (by norm_num [cwEdge, SCREEN_WIDTH]) (by norm_num [cwEdge])

/-- Claim C7: with `radius_i > 0`, the pairwise force divides only on the
branch where the distance passed the collision-threshold check (so the
divisor is at least `2*radius_i > 0`), and two bodies at the same position
produce the zero contribution. -/
theorem C7_no_unguarded_division (sq : R → R) (b1 b2 : Body R) (hr : 0 < b1.radius) :
    ((b1.get_distance sq b2 < 2 * b1.radius → b1.calculate_force sq b2 = 0) ∧
     (¬ b1.get_distance sq b2 < 2 * b1.radius →
        2 * b1.radius ≤ b1.get_distance sq b2 ∧ 0 < b1.get_distance sq b2)) ∧
    (sq 0 = 0 → b1.position = b2.position → b1.calculate_force sq b2 = 0) := by
  refine ⟨⟨fun h => by simp [Body.calculate_force, h], fun h => ?_⟩, fun hs hp => ?_⟩
  · have h' := not_lt.mp h
    exact ⟨h', by linarith⟩
  · have hd : b1.get_distance sq b2 = 0 := by
      simp [Body.get_distance, hp, hs]
    have hlt : b1.get_distance sq b2 < 2 * b1.radius := by rw [hd]; linarith
    simp [Body.calculate_force, hlt]

/-- Witness for C7: two coincident unit bodies yield the zero contribution. -/
theorem C7_witness :
    (Body.new (⟨7, 7⟩ : Vec2 ℚ)).calculate_force sqZero (Body.new ⟨7, 7⟩) = 0 :=
  (C7_no_unguarded_division sqZero (Body.new ⟨7, 7⟩) (Body.new ⟨7, 7⟩)
    (by norm_num [Body.new])).2 rfl rfl

/-- Two separated concrete bodies for the C1 witness. -/
def wBodies : List (Body ℚ) := [Body.new ⟨0, 0⟩, Body.new ⟨100, 0⟩]

/-- Witness for C1: force entry 0 of a concrete two-body collection is the
sum of spec contributions. -/
theorem C1_witness :
    (Body.calculate_forces sqId wBodies).getD 0 0 =
      ∑ j ∈ Finset.range wBodies.length,
        if j ≠ 0 then
          specPairContribution sqId (wBodies.getD 0 default) (wBodies.getD j default)
        else 0 :=
  (C1_force_field sqId wBodies).2.2 0 (by norm_num [wBodies])

/-- `Body::update` never changes mass or radius. -/
theorem update_mass_radius (sq : R → R) (dt : R) (b : Body R) :
    (b.update sq dt).mass = b.mass ∧ (b.update sq dt).radius = b.radius := by
  unfold Body.update Body.update_position Body.update_velocity Body.update_acceleration
  split_ifs <;> exact ⟨rfl, rfl⟩

/-- Pair collision resolution never changes mass or radius. -/
theorem collision_mass_radius (sq : R → R) (b1 b2 : Body R) :
    (b1.check_and_resolve_collision sq b2).1.mass = b1.mass ∧
    (b1.check_and_resolve_collision sq b2).1.radius = b1.radius ∧
    (b1.check_and_resolve_collision sq b2).2.mass = b2.mass ∧
    (b1.check_and_resolve_collision sq b2).2.radius = b2.radius := by
  unfold Body.check_and_resolve_collision
  split_ifs <;> exact ⟨rfl, rfl, rfl, rfl⟩

/-- Boundary resolution never changes mass or radius. -/
theorem boundary_mass_radius (b : Body R) :
    b.check_boundary_collisions.mass = b.mass ∧
    b.check_boundary_collisions.radius = b.radius := by
  rw [check_boundary_eq]
  obtain ⟨-, -, hXr, hXm, -⟩ := boundX_frame b
  obtain ⟨-, -, hYr, hYm, -⟩ := boundY_frame (boundX b)
  exact ⟨by rw [hYm, hXm], by rw [hYr, hXr]⟩

/-- The x-axis half of the checked boundary routine. -/
def boundXChecked (b : Body R) : Option (Body R) :=
  if b.position.x ≤ b.radius ∨ b.position.x ≥ SCREEN_WIDTH - b.radius then
    (rustClampChecked b.position.x b.radius (SCREEN_WIDTH - b.radius)).map (fun px =>
      { b with velocity := ⟨-b.velocity.x * FRICTION, b.velocity.y⟩
               position := ⟨px, b.position.y⟩ })
  else some b

/-- The y-axis half of the checked boundary routine. -/
def boundYChecked (b1 : Body R) : Option (Body R) :=
  if b1.position.y ≤ b1.radius ∨ b1.position.y ≥ SCREEN_HEIGHT - b1.radius then
    (rustClampChecked b1.position.y b1.radius (SCREEN_HEIGHT - b1.radius)).map (fun py =>
      { b1 with velocity := ⟨b1.velocity.x, -b1.velocity.y * FRICTION⟩
                position := ⟨b1.position.x, py⟩ })
  else some b1

theorem checked_eq_comp (b : Body R) :
    b.check_boundary_collisions_checked = (boundXChecked b).bind boundYChecked := rfl

theorem boundXChecked_eq (b : Body R) (hW : b.radius ≤ SCREEN_WIDTH - b.radius) :
    boundXChecked b = some (boundX b) := by
  unfold boundXChecked boundX rustClampChecked
  by_cases h : b.position.x ≤ b.radius ∨ b.position.x ≥ SCREEN_WIDTH - b.radius
  · rw [if_pos h, if_pos h, if_pos hW, Option.map_some']
  · rw [if_neg h, if_neg h]

theorem boundYChecked_eq (b1 : Body R) (hH : b1.radius ≤ SCREEN_HEIGHT - b1.radius) :
    boundYChecked b1 = some (boundY b1) := by
  unfold boundYChecked boundY rustClampChecked
  by_cases h : b1.position.y ≤ b1.radius ∨ b1.position.y ≥ SCREEN_HEIGHT - b1.radius
  · rw [if_pos h, if_pos h, if_pos hH, Option.map_some']
  · rw [if_neg h, if_neg h]

/-- With `0 ≤ radius ≤ 10` the checked boundary routine never panics and
agrees with the unchecked one. -/
theorem checked_boundary_eq (b : Body R) (h0 : 0 ≤ b.radius) (h10 : b.radius ≤ 10) :
    b.check_boundary_collisions_checked = some b.check_boundary_collisions := by
  have hW : b.radius ≤ SCREEN_WIDTH - b.radius := by
    simp only [SCREEN_WIDTH]; linarith
  have hH' : (boundX b).radius ≤ SCREEN_HEIGHT - (boundX b).radius := by
    rw [(boundX_frame b).2.2.1]
    simp only [SCREEN_HEIGHT]; linarith
  rw [checked_eq_comp, boundXChecked_eq b hW, Option.some_bind,
    boundYChecked_eq _ hH', check_boundary_eq]

/-- Claim C9: every constructed body has radius in `[0, 10]` (explicit
construction gives radius 10 and mass 1000; randomized construction with
mass in `[500, 1500]` gives radius `mass/150 ≤ 10`); no operation mutates
mass or radius; and for radius in `[0, 10]` the clamp range
`[radius, extent - radius]` is valid on both axes, so the boundary routine
never faults. -/
theorem C9_boundary_never_faults (sq : R → R) (dt : R) (p rp rv : Vec2 R)
    (ip : Option (Vec2 R)) (m : R) (b b2 : Body R)
    (hm1 : 500 ≤ m) (hm2 : m ≤ 1500) (hb0 : 0 ≤ b.radius) (hb10 : b.radius ≤ 10) :
    ((Body.new p).radius = 10 ∧ (Body.new p).mass = 1000) ∧
    ((Body.random ip rp rv m).radius = m / 150 ∧
      0 ≤ (Body.random ip rp rv m).radius ∧ (Body.random ip rp rv m).radius ≤ 10) ∧
    ((b.update sq dt).mass = b.mass ∧ (b.update sq dt).radius = b.radius ∧
     (b.check_and_resolve_collision sq b2).1.mass = b.mass ∧
     (b.check_and_resolve_collision sq b2).1.radius = b.radius ∧
     (b.check_and_resolve_collision sq b2).2.mass = b2.mass ∧
     (b.check_and_resolve_collision sq b2).2.radius = b2.radius ∧
     b.check_boundary_collisions.mass = b.mass ∧
     b.check_boundary_collisions.radius = b.radius) ∧
    (b.radius ≤ SCREEN_WIDTH - b.radius ∧ b.radius ≤ SCREEN_HEIGHT - b.radius ∧
     b.check_boundary_collisions_checked = some b.check_boundary_collisions) := by
  obtain ⟨hu1, hu2⟩ := update_mass_radius sq dt b
  obtain ⟨hc1, hc2, hc3, hc4⟩ := collision_mass_radius sq b b2
  obtain ⟨hbm, hbr⟩ := boundary_mass_radius b
  refine ⟨⟨rfl, rfl⟩, ⟨rfl, ?_, ?_⟩, ⟨hu1, hu2, hc1, hc2, hc3, hc4, hbm, hbr⟩,
    ?_, ?_, checked_boundary_eq b hb0 hb10⟩
  · have : (0 : R) ≤ m := by linarith
    simp only [Body.random]
    positivity
  · simp only [Body.random]
    rw [div_le_iff (by norm_num : (0:R) < 150)]
    linarith
  · simp only [SCREEN_WIDTH]; linarith
  · simp only [SCREEN_HEIGHT]; linarith

/-- Witness for C9 at concrete inputs. -/
theorem C9_witness :
    ((Body.new (⟨1, 2⟩ : Vec2 ℚ)).radius = 10 ∧ (Body.new (⟨1, 2⟩ : Vec2 ℚ)).mass = 1000) ∧
    (Body.new (⟨5, 5⟩ : Vec2 ℚ)).check_boundary_collisions_checked =
      some (Body.new (⟨5, 5⟩ : Vec2 ℚ)).check_boundary_collisions := by
  have h := C9_boundary_never_faults sqZero 1 ⟨1, 2⟩ ⟨0, 0⟩ ⟨0, 0⟩ none 750
    (Body.new ⟨5, 5⟩) (Body.new ⟨9, 9⟩) (by norm_num) (by norm_num)
    (by norm_num [Body.new]) (by norm_num [Body.new])
  exact ⟨h.1, h.2.2.2.2.2⟩

/-- Distance is symmetric in the two bodies. -/
theorem get_distance_comm (sq : R → R) (b1 b2 : Body R) :
    b1.get_distance sq b2 = b2.get_distance sq b1 := by
  unfold Body.get_distance
  congr 1
  ring

/-- Distance depends only on the two positions. -/
theorem get_distance_congr (sq : R → R) (a b a' b' : Body R)
    (ha : a.position = a'.position) (hb : b.position = b'.position) :
    a.get_distance sq b = a'.get_distance sq b' := by
  unfold Body.get_distance
  rw [ha, hb]

/-- A pair failing the overlap test is returned unchanged. -/
theorem collision_id (sq : R → R) (b1 b2 : Body R)
    (h : ¬ (b1.get_distance sq b2 < 2 * b1.radius ∨
            b1.get_distance sq b2 < 2 * b2.radius)) :
    b1.check_and_resolve_collision sq b2 = (b1, b2) := by
  unfold Body.check_and_resolve_collision
  rw [if_neg h]

/-- Pair resolution never changes positions or radii. -/
theorem collision_positions (sq : R → R) (b1 b2 : Body R) :
    (b1.check_and_resolve_collision sq b2).1.position = b1.position ∧
    (b1.check_and_resolve_collision sq b2).2.position = b2.position ∧
    (b1.check_and_resolve_collision sq b2).1.radius = b1.radius ∧
    (b1.check_and_resolve_collision sq b2).2.radius = b2.radius := by
  unfold Body.check_and_resolve_collision
  split_ifs <;> exact ⟨rfl, rfl, rfl, rfl⟩

/-- A body triggering neither axis is returned unchanged by the boundary
routine. -/
theorem boundary_id (b : Body R)
    (hx : ¬ (b.position.x ≤ b.radius ∨ b.position.x ≥ SCREEN_WIDTH - b.radius))
    (hy : ¬ (b.position.y ≤ b.radius ∨ b.position.y ≥ SCREEN_HEIGHT - b.radius)) :
    b.check_boundary_collisions = b := by
  have hbx : boundX b = b := by unfold boundX; rw [if_neg hx]
  have hby : boundY b = b := by unfold boundY; rw [if_neg hy]
  rw [check_boundary_eq, hbx, hby]

theorem zipUpdate_length (sq : R → R) (dt : R) :
    ∀ (bs : List (Body R)) (fs : List (Vec2 R)),
      (zipUpdate sq dt bs fs).length = bs.length := by
  intro bs
  induction bs with
  | nil => intro fs; rfl
  | cons b bs ih =>
    intro fs
    cases fs with
    | nil => rfl
    | cons f fs => simp [zipUpdate, ih fs]

/-- A frozen body keeps its position, velocity and flag across one
force-assign-and-update pass. -/
theorem zipUpdate_frozen_at (sq : R → R) (dt : R) :
    ∀ (bs : List (Body R)) (fs : List (Vec2 R)) (m : Nat),
      (bs.getD m default).freezed = true →
      ((zipUpdate sq dt bs fs).getD m default).position = (bs.getD m default).position ∧
      ((zipUpdate sq dt bs fs).getD m default).velocity = (bs.getD m default).velocity ∧
      ((zipUpdate sq dt bs fs).getD m default).radius = (bs.getD m default).radius ∧
      ((zipUpdate sq dt bs fs).getD m default).freezed = true := by
  intro bs
  induction bs with
  | nil => intro fs m h; exact ⟨rfl, rfl, rfl, h⟩
  | cons b bs ih =>
    intro fs m h
    cases fs with
    | nil => exact ⟨rfl, rfl, rfl, h⟩
    | cons f fs =>
      cases m with
      | zero =>
        have h' : b.freezed = true := h
        have hupd : ({ b with force := f } : Body R).update sq dt = { b with force := f } := by
          unfold Body.update
          rw [if_pos h']
        show ((({ b with force := f } : Body R).update sq dt)).position = b.position ∧
          ((({ b with force := f } : Body R).update sq dt)).velocity = b.velocity ∧
          ((({ b with force := f } : Body R).update sq dt)).radius = b.radius ∧
          ((({ b with force := f } : Body R).update sq dt)).freezed = true
        rw [hupd]
        exact ⟨rfl, rfl, rfl, h'⟩
      | succ k => exact ih fs k h

theorem iterate_zip_length (sq : R → R) (dt' : R) (forces : List (Vec2 R)) :
    ∀ (k : Nat) (bs : List (Body R)),
      ((fun s => zipUpdate sq dt' s forces)^[k] bs).length = bs.length := by
  intro k
  induction k with
  | zero => intro bs; rfl
  | succ n ih =>
    intro bs
    rw [Function.iterate_succ_apply', zipUpdate_length]
    exact ih bs

theorem iterate_zip_frozen (sq : R → R) (dt' : R) (forces : List (Vec2 R)) (m : Nat) :
    ∀ (k : Nat) (bs : List (Body R)),
      (bs.getD m default).freezed = true →
      (((fun s => zipUpdate sq dt' s forces)^[k] bs).getD m default).position =
          (bs.getD m default).position ∧
      (((fun s => zipUpdate sq dt' s forces)^[k] bs).getD m default).velocity =
          (bs.getD m default).velocity ∧
      (((fun s => zipUpdate sq dt' s forces)^[k] bs).getD m default).radius =
          (bs.getD m default).radius ∧
      (((fun s => zipUpdate sq dt' s forces)^[k] bs).getD m default).freezed = true := by
  intro k
  induction k with
  | zero => intro bs h; exact ⟨rfl, rfl, rfl, h⟩
  | succ n ih =>
    intro bs h
    obtain ⟨hp, hv, hr, hf⟩ := ih bs h
    obtain ⟨hp', hv', hr', hf'⟩ := zipUpdate_frozen_at sq dt'
      ((fun s => zipUpdate sq dt' s forces)^[n] bs) forces m hf
    rw [Function.iterate_succ_apply']
    exact ⟨hp'.trans hp, hv'.trans hv, hr'.trans hr, hf'⟩

/-- Simple preservation principle for `List.foldl`. -/
theorem foldl_preserve {α β : Type} (f : α → β → α) (P : α → Prop) :
    ∀ (l : List β) (a : α), P a → (∀ x, x ∈ l → ∀ s, P s → P (f s x)) →
      P (l.foldl f a) := by
  intro l
  induction l with
  | nil => intro a h _; exact h
  | cons x xs ih =>
    intro a h hstep
    exact ih (f a x) (hstep x (by simp) a h)
      (fun y hy s hs => hstep y (by simp [hy]) s hs)

/-- Index-aware invariant principle for folds over `List.range'`. -/
theorem foldl_range'_inv {α : Type} (f : α → Nat → α) (Inv : Nat → α → Prop) :
    ∀ (len start : Nat) (a : α), Inv start a →
      (∀ k s, start ≤ k → k < start + len → Inv k s → Inv (k + 1) (f s k)) →
      Inv (start + len) ((List.range' start len).foldl f a) := by
  intro len
  induction len with
  | zero => intro start a h _; simpa using h
  | succ l ih =>
    intro start a h hstep
    have h1 : Inv (start + 1) (f a start) :=
      hstep start a (le_refl start) (by omega) h
    have h2 := ih (start + 1) (f a start) h1
      (fun k s hk1 hk2 hI => hstep k s (by omega) (by omega) hI)
    have harith : start + 1 + l = start + (l + 1) := by omega
    rw [harith] at h2
    exact h2

/-- Invariant carried through the collision/boundary pass for a body `m`
that collides with nobody: lengths and radii agree with the
post-integration snapshot `as`, positions of all indices not yet
boundary-processed agree with `as`, and body `m` keeps its position and
velocity. -/
def stepInv (as : List (Body R)) (m k : Nat) (s : List (Body R)) : Prop :=
  s.length = as.length ∧
  (∀ t, t < as.length → (s.getD t default).radius = (as.getD t default).radius) ∧
  (∀ t, k ≤ t → t < as.length →
    (s.getD t default).position = (as.getD t default).position) ∧
  (s.getD m default).position = (as.getD m default).position ∧
  (s.getD m default).velocity = (as.getD m default).velocity

/-- One inner pair-loop iteration block preserves the invariant: a body `m`
separated (by the max-radius margin) from every other body in the
post-integration snapshot is untouched, and no pair resolution moves any
position. -/
theorem innerPass_preserves (sq : R → R) (as : List (Body R)) (m : Nat)
    (hm : m < as.length)
    (hsep : ∀ j, j < as.length → j ≠ m →
      2 * max (as.getD m default).radius (as.getD j default).radius ≤
        (as.getD m default).get_distance sq (as.getD j default))
    (k : Nat) (hk : k < as.length) (s : List (Body R))
    (hInv : stepInv as m k s) :
    stepInv as m k (innerPass sq s k) := by
  have hslen : s.length = as.length := hInv.1
  unfold innerPass
  rw [hslen]
  refine foldl_preserve _ (stepInv as m k) _ s hInv ?_
  intro j hj s' hs'
  obtain ⟨hj1, hj2⟩ := (List.mem_range'_1).mp hj
  have hjk : k < j := hj1
  have hjn : j < as.length := by omega
  obtain ⟨hs'len, hrad, hpos, hmp, hmv⟩ := hs'
  set bk := s'.getD k default with hbk
  set bj := s'.getD j default with hbj
  have hposk : bk.position = (as.getD k default).position := hpos k (le_refl k) hk
  have hposj : bj.position = (as.getD j default).position := hpos j (by omega) hjn
  have hradk : bk.radius = (as.getD k default).radius := hrad k hk
  have hradj : bj.radius = (as.getD j default).radius := hrad j hjn
  by_cases hmk : m = k
  · -- the pair is (m, j): it is separated, so resolution is the identity
    have hD : bk.get_distance sq bj =
        (as.getD k default).get_distance sq (as.getD j default) := by
      apply get_distance_congr
      · exact hposk
      · exact hposj
    have hle : 2 * max (as.getD k default).radius (as.getD j default).radius ≤
        (as.getD k default).get_distance sq (as.getD j default) := by
      rw [← hmk]
      exact hsep j hjn (by omega)
    have h1 := le_max_left (as.getD k default).radius (as.getD j default).radius
    have h2 := le_max_right (as.getD k default).radius (as.getD j default).radius
    have hcond : ¬ (bk.get_distance sq bj < 2 * bk.radius ∨
        bk.get_distance sq bj < 2 * bj.radius) := by
      push_neg
      rw [hD, hradk, hradj]
      constructor <;> linarith
    have hres : resolvePairAt sq s' k j = s' := by
      unfold resolvePairAt
      rw [← hbk, ← hbj, collision_id sq bk bj hcond]
      dsimp only
      rw [hbk, set_getD_self, hbj, set_getD_self]
    rw [hres]
    exact ⟨hs'len, hrad, hpos, hmp, hmv⟩
  · by_cases hmj : m = j
    · -- the pair is (k, m): again separated, resolution is the identity
      have hD : bk.get_distance sq bj =
          (as.getD j default).get_distance sq (as.getD k default) := by
        rw [get_distance_comm]
        apply get_distance_congr
        · exact hposj
        · exact hposk
      have hle : 2 * max (as.getD j default).radius (as.getD k default).radius ≤
          (as.getD j default).get_distance sq (as.getD k default) := by
        rw [← hmj]
        exact hsep k hk (by omega)
      have h1 := le_max_left (as.getD j default).radius (as.getD k default).radius
      have h2 := le_max_right (as.getD j default).radius (as.getD k default).radius
      have hcond : ¬ (bk.get_distance sq bj < 2 * bk.radius ∨
          bk.get_distance sq bj < 2 * bj.radius) := by
        push_neg
        rw [hD, hradk, hradj]
        constructor <;> linarith
      have hres : resolvePairAt sq s' k j = s' := by
        unfold resolvePairAt
        rw [← hbk, ← hbj, collision_id sq bk bj hcond]
        dsimp only
        rw [hbk, set_getD_self, hbj, set_getD_self]
      rw [hres]
      exact ⟨hs'len, hrad, hpos, hmp, hmv⟩
    · -- the pair touches neither side of m; positions and radii survive
      obtain ⟨pp1, pp2, pr1, pr2⟩ := collision_positions sq bk bj
      have hres : resolvePairAt sq s' k j =
          (s'.set k (bk.check_and_resolve_collision sq bj).1).set j
            (bk.check_and_resolve_collision sq bj).2 := by
        unfold resolvePairAt
        rw [← hbk, ← hbj]
      rw [hres]
      have hlen1 : (s'.set k (bk.check_and_resolve_collision sq bj).1).length =
          as.length := by simp [hs'len]
      refine ⟨by simp [hs'len], ?_, ?_, ?_, ?_⟩
      · intro t ht
        by_cases htj : t = j
        · subst htj
          rw [getD_set_self _ _ _ _ (by rw [hlen1]; exact ht), pr2, hradj]
        · by_cases htk : t = k
          · subst htk
            rw [getD_set_ne _ _ _ j t (fun hh => htj hh.symm),
              getD_set_self _ _ _ _ (by rw [hs'len]; exact ht), pr1, hradk]
          · rw [getD_set_ne _ _ _ j t (fun hh => htj hh.symm),
              getD_set_ne _ _ _ k t (fun hh => htk hh.symm)]
            exact hrad t ht
      · intro t ht1 ht2
        by_cases htj : t = j
        · subst htj
          rw [getD_set_self _ _ _ _ (by rw [hlen1]; exact ht2), pp2, hposj]
        · by_cases htk : t = k
          · subst htk
            rw [getD_set_ne _ _ _ j t (fun hh => htj hh.symm),
              getD_set_self _ _ _ _ (by rw [hs'len]; exact ht2), pp1, hposk]
          · rw [getD_set_ne _ _ _ j t (fun hh => htj hh.symm),
              getD_set_ne _ _ _ k t (fun hh => htk hh.symm)]
            exact hpos t ht1 ht2
      · rw [getD_set_ne _ _ _ j m (fun hh => hmj hh.symm),
          getD_set_ne _ _ _ k m (fun hh => hmk hh.symm)]
        exact hmp
      · rw [getD_set_ne _ _ _ j m (fun hh => hmj hh.symm),
          getD_set_ne _ _ _ k m (fun hh => hmk hh.symm)]
        exact hmv

/-- The full collision/boundary pass leaves a separated, off-boundary body's
position and velocity unchanged. -/
theorem outerPass_frozen (sq : R → R) (as : List (Body R)) (m : Nat) (hm : m < as.length)
    (hsep : ∀ j, j < as.length → j ≠ m →
      2 * max (as.getD m default).radius (as.getD j default).radius ≤
        (as.getD m default).get_distance sq (as.getD j default))
    (hbx : ¬ ((as.getD m default).position.x ≤ (as.getD m default).radius ∨
        (as.getD m default).position.x ≥ SCREEN_WIDTH - (as.getD m default).radius))
    (hby : ¬ ((as.getD m default).position.y ≤ (as.getD m default).radius ∨
        (as.getD m default).position.y ≥ SCREEN_HEIGHT - (as.getD m default).radius)) :
    ((outerPass sq as).getD m default).position = (as.getD m default).position ∧
    ((outerPass sq as).getD m default).velocity = (as.getD m default).velocity := by
  have h0 : stepInv as m 0 as := ⟨rfl, fun t _ => rfl, fun t _ _ => rfl, rfl, rfl⟩
  have hstep : ∀ k s, 0 ≤ k → k < 0 + as.length → stepInv as m k s →
      stepInv as m (k + 1)
        ((innerPass sq s k).set k
          (Body.check_boundary_collisions ((innerPass sq s k).getD k default))) := by
    intro k s _ hklen hs
    have hkn : k < as.length := by omega
    obtain ⟨h2len, h2rad, h2pos, h2mp, h2mv⟩ :=
      innerPass_preserves sq as m hm hsep k hkn s hs
    refine ⟨by simp [h2len], ?_, ?_, ?_, ?_⟩
    · intro t ht
      by_cases htk : t = k
      · subst htk
        rw [getD_set_self _ _ _ _ (by rw [h2len]; exact ht),
          (boundary_mass_radius _).2]
        exact h2rad t ht
      · rw [getD_set_ne _ _ _ k t (fun hh => htk hh.symm)]
        exact h2rad t ht
    · intro t ht1 ht2
      have htk : ¬ k = t := by omega
      rw [getD_set_ne _ _ _ k t htk]
      exact h2pos t (by omega) ht2
    · by_cases hmk : m = k
      · have hpm : ((innerPass sq s k).getD k default).position =
            (as.getD k default).position := hmk ▸ h2mp
        have hrm : ((innerPass sq s k).getD k default).radius =
            (as.getD k default).radius := h2rad k hkn
        have hid : Body.check_boundary_collisions ((innerPass sq s k).getD k default) =
            (innerPass sq s k).getD k default := by
          apply boundary_id
          · rw [hpm, hrm]; exact hmk ▸ hbx
          · rw [hpm, hrm]; exact hmk ▸ hby
        rw [hmk, getD_set_self _ _ _ _ (by rw [h2len]; exact hkn), hid]
        exact hpm
      · rw [getD_set_ne _ _ _ k m (fun hh => hmk hh.symm)]
        exact h2mp
    · by_cases hmk : m = k
      · have hpm : ((innerPass sq s k).getD k default).position =
            (as.getD k default).position := hmk ▸ h2mp
        have hvm : ((innerPass sq s k).getD k default).velocity =
            (as.getD k default).velocity := hmk ▸ h2mv
        have hrm : ((innerPass sq s k).getD k default).radius =
            (as.getD k default).radius := h2rad k hkn
        have hid : Body.check_boundary_collisions ((innerPass sq s k).getD k default) =
            (innerPass sq s k).getD k default := by
          apply boundary_id
          · rw [hpm, hrm]; exact hmk ▸ hbx
          · rw [hpm, hrm]; exact hmk ▸ hby
        rw [hmk, getD_set_self _ _ _ _ (by rw [h2len]; exact hkn), hid]
        exact hvm
      · rw [getD_set_ne _ _ _ k m (fun hh => hmk hh.symm)]
        exact h2mv
  have hfinal := foldl_range'_inv
    (fun s i => (innerPass sq s i).set i
      (Body.check_boundary_collisions ((innerPass sq s i).getD i default)))
    (stepInv as m) as.length 0 as h0 hstep
  rw [Nat.zero_add] at hfinal
  have hout : outerPass sq as = (List.range' 0 as.length).foldl
      (fun s i => (innerPass sq s i).set i
        (Body.check_boundary_collisions ((innerPass sq s i).getD i default))) as := by
    unfold outerPass
    rw [List.range_eq_range' as.length]
  rw [hout]
  exact ⟨hfinal.2.2.2.1, hfinal.2.2.2.2⟩

/-- The integration phase of one main-loop step: forces computed from the
current collection, then applied with substepping. -/
def integrated (sq : R → R) (dt : R) (substeps : Nat) (bodies : List (Body R)) :
    List (Body R) :=
  Body.apply_forces_with_substeps sq bodies (Body.calculate_forces sq bodies) dt substeps

theorem step_eq_outer_integrated (sq : R → R) (dt : R) (n : Nat) (bodies : List (Body R)) :
    step sq dt n bodies = outerPass sq (integrated sq dt n bodies) := rfl

theorem integrated_length (sq : R → R) (dt : R) (n : Nat) (bodies : List (Body R)) :
    (integrated sq dt n bodies).length = bodies.length := by
  unfold integrated Body.apply_forces_with_substeps
  rw [foldl_fixed_range]
  exact iterate_zip_length sq _ _ n bodies

theorem integrated_frozen (sq : R → R) (dt : R) (n : Nat) (bodies : List (Body R)) (m : Nat)
    (h : (bodies.getD m default).freezed = true) :
    ((integrated sq dt n bodies).getD m default).position =
        (bodies.getD m default).position ∧
    ((integrated sq dt n bodies).getD m default).velocity =
        (bodies.getD m default).velocity ∧
    ((integrated sq dt n bodies).getD m default).radius =
        (bodies.getD m default).radius ∧
    ((integrated sq dt n bodies).getD m default).freezed = true := by
  unfold integrated Body.apply_forces_with_substeps
  rw [foldl_fixed_range]
  exact iterate_zip_frozen sq _ _ m n bodies h

/-- Frozen body A for the C6 counterexample, coincident with another body. -/
def cb0 : Body ℚ :=
  { position := ⟨400, 300⟩
    velocity := ⟨1, 0⟩
    acceleration := ⟨0, 0⟩
    force := ⟨0, 0⟩
    mass := 1000
    radius := 10
    freezed := true }

/-- Unfrozen body B for the C6 counterexample, at the same position as A. -/
def cb1 : Body ℚ :=
  { position := ⟨400, 300⟩
    velocity := ⟨0, 0⟩
    acceleration := ⟨0, 0⟩
    force := ⟨0, 0⟩
    mass := 1000
    radius := 10
    freezed := false }

/-- Claim C6 counterexample: the frozen body `cb0` overlaps `cb1`, so the
pair-collision stage of a full step swaps its velocity away from `(1, 0)` —
a frozen body's state is not preserved by the whole step. -/
theorem C6_counterexample :
    cb0.freezed = true ∧
    ¬ (((step sqZero 1 1 [cb0, cb1]).getD 0 default).position = cb0.position ∧
       ((step sqZero 1 1 [cb0, cb1]).getD 0 default).velocity = cb0.velocity) := by
  refine ⟨rfl, ?_⟩
  norm_num [step, outerPass, innerPass, resolvePairAt, integrated,
    Body.apply_forces_with_substeps, Body.calculate_forces, Body.calculate_force,
    Body.get_distance, zipUpdate, Body.update, Body.update_acceleration,
    Body.update_velocity, Body.update_position, Body.check_and_resolve_collision,
    Body.check_boundary_collisions, rustClamp, Vec2.length, Vec2.normalize,
    Vec2.add_def, Vec2.smul_def, Vec2.zero_def, Vec2.zero_x, Vec2.zero_y,
    List.enum, List.enumFrom, List.range_succ, List.range', List.set, List.getD,
    sqZero, cb0, cb1, FRICTION, MAX_VELOCITY, SCREEN_WIDTH, SCREEN_HEIGHT, G, Body.new]

/-- Claim C6 (amended): a frozen body keeps position and velocity across a
full step provided it is separated by the collision margin from every other
(post-integration) body and is not within `radius` of the arena boundary;
the integration stage alone never moves a frozen body, but the collision
and boundary stages apply to frozen bodies like any other. -/
theorem C6_frozen_amended (sq : R → R) (dt : R) (n : Nat) (bodies : List (Body R))
    (m : Nat) (hm : m < bodies.length)
    (hfroz : (bodies.getD m default).freezed = true)
    (hsep : ∀ j, j < bodies.length → j ≠ m →
      2 * max ((integrated sq dt n bodies).getD m default).radius
          ((integrated sq dt n bodies).getD j default).radius ≤
        ((integrated sq dt n bodies).getD m default).get_distance sq
          ((integrated sq dt n bodies).getD j default))
    (hbx : ¬ (((integrated sq dt n bodies).getD m default).position.x ≤
          ((integrated sq dt n bodies).getD m default).radius ∨
        ((integrated sq dt n bodies).getD m default).position.x ≥
          SCREEN_WIDTH - ((integrated sq dt n bodies).getD m default).radius))
    (hby : ¬ (((integrated sq dt n bodies).getD m default).position.y ≤
          ((integrated sq dt n bodies).getD m default).radius ∨
        ((integrated sq dt n bodies).getD m default).position.y ≥
          SCREEN_HEIGHT - ((integrated sq dt n bodies).getD m default).radius)) :
    ((step sq dt n bodies).getD m default).position = (bodies.getD m default).position ∧
    ((step sq dt n bodies).getD m default).velocity = (bodies.getD m default).velocity := by
  obtain ⟨hip, hiv, -, -⟩ := integrated_frozen sq dt n bodies m hfroz
  have hlen := integrated_length sq dt n bodies
  have hm' : m < (integrated sq dt n bodies).length := by omega
  have hsep' : ∀ j, j < (integrated sq dt n bodies).length → j ≠ m →
      2 * max ((integrated sq dt n bodies).getD m default).radius
          ((integrated sq dt n bodies).getD j default).radius ≤
        ((integrated sq dt n bodies).getD m default).get_distance sq
          ((integrated sq dt n bodies).getD j default) :=
    fun j hj hjm => hsep j (by omega) hjm
  have h := outerPass_frozen sq (integrated sq dt n bodies) m hm' hsep' hbx hby
  rw [step_eq_outer_integrated]
  exact ⟨h.1.trans hip, h.2.trans hiv⟩

/-- Frozen, isolated body for the C6 witness. -/
def wf0 : Body ℚ :=
  { position := ⟨100, 100⟩
    velocity := ⟨1, 2⟩
    acceleration := ⟨0, 0⟩
    force := ⟨0, 0⟩
    mass := 1000
    radius := 10
    freezed := true }

/-- Second frozen body far away from `wf0`, for the C6 witness. -/
def wf1 : Body ℚ :=
  { position := ⟨700, 500⟩
    velocity := ⟨0, 0⟩
    acceleration := ⟨0, 0⟩
    force := ⟨0, 0⟩
    mass := 1000
    radius := 10
    freezed := true }

/-- Witness for the amended C6: the isolated frozen body `wf0` keeps its
position and velocity across a full step. -/
theorem C6_witness :
    ((step sqId 1 1 [wf0, wf1]).getD 0 default).position = wf0.position ∧
    ((step sqId 1 1 [wf0, wf1]).getD 0 default).velocity = wf0.velocity := by
  have i0 := integrated_frozen sqId 1 1 [wf0, wf1] 0 rfl
  have i1 := integrated_frozen sqId 1 1 [wf0, wf1] 1 rfl
  have hsep : ∀ j, j < ([wf0, wf1] : List (Body ℚ)).length → j ≠ 0 →
      2 * max ((integrated sqId 1 1 [wf0, wf1]).getD 0 default).radius
          ((integrated sqId 1 1 [wf0, wf1]).getD j default).radius ≤
        ((integrated sqId 1 1 [wf0, wf1]).getD 0 default).get_distance sqId
          ((integrated sqId 1 1 [wf0, wf1]).getD j default) := by
    intro j hj hj0
    have hj1 : j = 1 := by
      simp only [List.length_cons, List.length_nil] at hj
      omega
    subst hj1
    have hdist : ((integrated sqId 1 1 [wf0, wf1]).getD 0 default).get_distance sqId
        ((integrated sqId 1 1 [wf0, wf1]).getD 1 default) =
        wf0.get_distance sqId wf1 :=
      get_distance_congr sqId _ _ wf0 wf1 i0.1 i1.1
    rw [hdist, i0.2.2.1, i1.2.2.1]
    norm_num [wf0, wf1, Body.get_distance, sqId]
  have hbx : ¬ (((integrated sqId 1 1 [wf0, wf1]).getD 0 default).position.x ≤
        ((integrated sqId 1 1 [wf0, wf1]).getD 0 default).radius ∨
      ((integrated sqId 1 1 [wf0, wf1]).getD 0 default).position.x ≥
        SCREEN_WIDTH - ((integrated sqId 1 1 [wf0, wf1]).getD 0 default).radius) := by
    rw [i0.1, i0.2.2.1]
    norm_num [wf0, SCREEN_WIDTH]
  have hby : ¬ (((integrated sqId 1 1 [wf0, wf1]).getD 0 default).position.y ≤
        ((integrated sqId 1 1 [wf0, wf1]).getD 0 default).radius ∨
      ((integrated sqId 1 1 [wf0, wf1]).getD 0 default).position.y ≥
        SCREEN_HEIGHT - ((integrated sqId 1 1 [wf0, wf1]).getD 0 default).radius) := by
    rw [i0.1, i0.2.2.1]
    norm_num [wf0, SCREEN_HEIGHT]
  exact C6_frozen_amended sqId 1 1 [wf0, wf1] 0 (by norm_num) rfl hsep hbx hby

end Threebody
